import Mathlib

/-!
Verification development for the pyOMRON G3PW power-controller client.

This file shallowly embeds the protocol layer of the repository
(`src/pyomron/device.py` and `src/pyomron/comm.py`) in Lean and proves or
refutes the frozen claims about it.  Python dictionaries are modelled as
association lists with insertion-order update semantics, Python exceptions
as `Option`/`Except`, Python floats arising from true division as `ℚ`,
and byte strings as `List Nat` / `List Char`.
-/

namespace PyOmron

/-- Embedding of `Omron._bcc_calc` (device.py lines 119-132): the running
XOR of the ordinal value of every frame byte after the first one. -/
def bcc_calc (frame : List Char) : Nat :=
  (frame.drop 1).foldl (fun bcc c => bcc ^^^ c.toNat) 0

/-- One read attempt inside `SerialDevice._write_readline` (comm.py lines
208-234): the inner polling loop either produces a nonempty chunk of the
bytes waiting on the port, or the per-attempt timeout cancels it with no
byte produced. -/
inductive ReadResult where
  | timeout : ReadResult
  | chunk : List Nat → ReadResult
deriving DecidableEq

/-- Embedding of the receive loop of `SerialDevice._write_readline`
(comm.py lines 220-234), parameterised by the sequence of read-attempt
outcomes.  Each chunk is appended to the accumulating line; the loop breaks
with success as soon as the byte 0x03 occurs anywhere in the line, and
breaks returning the partial line when an attempt times out.  `none` means
the supplied outcome sequence was exhausted before the loop terminated. -/
def write_readline_go : List ReadResult → List Nat → Option (List Nat × Bool)
  | [], _ => none
  | ReadResult.timeout :: _, line => some (line, false)
  | ReadResult.chunk bs :: rest, line =>
    if 3 ∈ line ++ bs then some (line ++ bs, true)
    else write_readline_go rest (line ++ bs)

/-- The receive loop started on an empty accumulator, as in the source. -/
def write_readline (reads : List ReadResult) : Option (List Nat × Bool) :=
  write_readline_go reads []

theorem write_readline_go_spec (reads : List ReadResult) :
    ∀ (line : List Nat) (res : List Nat × Bool),
    3 ∉ line → write_readline_go reads line = some res →
    (res.2 = true → 3 ∈ res.1) ∧
    (res.2 = false → 3 ∉ res.1 ∧
      ∃ (pre : List (List Nat)) (rest : List ReadResult),
        reads = pre.map ReadResult.chunk ++ ReadResult.timeout :: rest ∧
        res.1 = line ++ pre.flatten) := by
  induction reads with
  | nil => intro line res _ h; simp [write_readline_go] at h
  | cons ev rest ih =>
    intro line res hline h
    cases ev with
    | timeout =>
      simp only [write_readline_go, Option.some.injEq] at h
      subst h
      refine ⟨by intro hc; simp at hc, ?_⟩
      intro _
      exact ⟨hline, [], rest, by simp, by simp⟩
    | chunk bs =>
      simp only [write_readline_go] at h
      by_cases hmem : 3 ∈ line ++ bs
      · rw [if_pos hmem, Option.some.injEq] at h
        subst h
        refine ⟨fun _ => hmem, ?_⟩
        intro hfalse; simp at hfalse
      · rw [if_neg hmem] at h
        obtain ⟨h1, h2⟩ := ih (line ++ bs) res hmem h
        refine ⟨h1, ?_⟩
        intro hf
        obtain ⟨hnot, pre, r2, hr, hres⟩ := h2 hf
        exact ⟨hnot, bs :: pre, r2, by simp [hr], by simp [hres]⟩

/-- C2 (amended): the receive loop of `SerialDevice._write_readline`
terminates successfully exactly when the terminator byte 0x03 occurs in the
accumulated buffer — whole read chunks are appended, so the peer checksum
byte that follows the terminator is consumed only if it arrived in the same
chunk; and when a single read attempt exceeds the per-attempt timeout with
no byte produced, the call aborts and returns whatever partial bytes had
been accumulated from the preceding chunks. -/
theorem C2_write_readline_amended (reads : List ReadResult) (res : List Nat × Bool)
    (h : write_readline reads = some res) :
    (res.2 = true → 3 ∈ res.1) ∧
    (res.2 = false → 3 ∉ res.1 ∧
      ∃ (pre : List (List Nat)) (rest : List ReadResult),
        reads = pre.map ReadResult.chunk ++ ReadResult.timeout :: rest ∧
        res.1 = pre.flatten) := by
  obtain ⟨h1, h2⟩ := write_readline_go_spec reads [] res (by simp) h
  refine ⟨h1, ?_⟩
  intro hf
  obtain ⟨hnot, pre, r2, hr, hres⟩ := h2 hf
  exact ⟨hnot, pre, r2, hr, by simpa using hres⟩

/-- Witness for C2 (amended) at a concrete input. -/
theorem C2_write_readline_amended_witness :
    write_readline [ReadResult.chunk [2, 48, 3]] = some ([2, 48, 3], true) ∧
    3 ∈ ([2, 48, 3] : List Nat) :=
  ⟨by decide,
   (C2_write_readline_amended [ReadResult.chunk [2, 48, 3]] ([2, 48, 3], true)
     (by decide)).1 rfl⟩

/-- C2 counterexample: a single chunk that ends exactly at the terminator
byte 0x03 makes the loop terminate successfully even though no further byte
(the peer checksum byte) was consumed after the terminator: the returned
line has 0x03 as its very last byte. -/
theorem C2_write_readline_counterexample :
    write_readline [ReadResult.chunk [2, 48, 3]] = some ([2, 48, 3], true) ∧
    ([2, 48, 3] : List Nat).getLast? = some 3 := by
  exact ⟨by decide, rfl⟩

theorem bcc_foldl_eq_foldr (l : List Char) :
    ∀ a : Nat, l.foldl (fun b c => b ^^^ c.toNat) a =
      a ^^^ l.foldr (fun c acc => c.toNat ^^^ acc) 0 := by
  induction l with
  | nil => intro a; simp
  | cons x xs ih =>
    intro a
    simp only [List.foldl_cons, List.foldr_cons, ih]
    rw [Nat.xor_assoc]

/-- C6: the checksum computed by `Omron._bcc_calc` over a frame equals the
XOR of the ordinal values of all bytes after the first one (STX excluded,
trailing ETX included), and over the example bytes A, B, C it equals
0x42 XOR 0x43 = 0x01. -/
theorem C6_bcc_calc_xor_tail :
    (∀ frame : List Char,
      bcc_calc frame = (frame.drop 1).foldr (fun c acc => c.toNat ^^^ acc) 0) ∧
    bcc_calc ['A', 'B', 'C'] = 1 := by
  constructor
  · intro frame
    unfold bcc_calc
    rw [bcc_foldl_eq_foldr, Nat.zero_xor]
  · decide

/-- Lowercase hexadecimal digit character for a value below 16, as produced
by the Python builtin hex(). -/
def hexCharLower (d : Nat) : Char :=
  if d < 10 then Char.ofNat (48 + d) else Char.ofNat (87 + d)

/-- Python str.upper restricted to one character. -/
def pyUpper (c : Char) : Char :=
  if 97 ≤ c.toNat ∧ c.toNat ≤ 122 then Char.ofNat (c.toNat - 32) else c

/-- Hexadecimal digits of a number, least significant first, computed with
explicit fuel so that the definition reduces definitionally; fuel equal to
the number itself always suffices because the argument shrinks each step. -/
def toHexRevF : Nat → Nat → List Nat
  | 0, _ => []
  | f + 1, n => if n = 0 then [] else n % 16 :: toHexRevF f (n / 16)

/-- Digit sequence of the Python literal hex(n) after the 0x prefix,
most significant digit first; hex(0) gives the single digit 0. -/
def hexDigits (n : Nat) : List Nat :=
  if n = 0 then [0] else (toHexRevF n n).reverse

/-- The Python expression hex(n)[2:] for an integer n.  For a negative
number hex() yields a minus sign before the 0x prefix, so slicing two
characters off leaves the letter x followed by the digits. -/
def pyHexSlice2 (n : Int) : List Char :=
  if 0 ≤ n then (hexDigits n.toNat).map hexCharLower
  else 'x' :: (hexDigits (-n).toNat).map hexCharLower

/-- Python format-string padding on the left with the 0 character up to
width w; a longer value is never truncated. -/
def padLeftZero (w : Nat) (s : List Char) : List Char :=
  List.replicate (w - s.length) '0' ++ s

/-- Python int() truncation toward zero on an exact rational, modelling
int(float(x)) for values that the binary floats of the source represent
exactly: the quotient of numerator by denominator rounded toward zero. -/
def pytrunc (q : ℚ) : Int :=
  q.num.tdiv (q.den : Int)

/-- Value of a decimal digit character, as accepted by the Python builtin
int() with base 10 on a one-character string; none models the ValueError
raised on any other character. -/
def decDigitVal? (c : Char) : Option Nat :=
  if 48 ≤ c.toNat ∧ c.toNat ≤ 57 then some (c.toNat - 48) else none

/-- Value of a hexadecimal digit character, as accepted by int() with base
16 on a one-character string; none models the ValueError raised on any
other character. -/
def hexDigitVal? (c : Char) : Option Nat :=
  if 48 ≤ c.toNat ∧ c.toNat ≤ 57 then some (c.toNat - 48)
  else if 65 ≤ c.toNat ∧ c.toNat ≤ 70 then some (c.toNat - 55)
  else if 97 ≤ c.toNat ∧ c.toNat ≤ 102 then some (c.toNat - 87)
  else none

/-- The Python expression int(s, 16) on a list of characters; none models
the ValueError raised on an empty string or on a non-digit character. -/
def pyIntHex? (s : List Char) : Option Nat :=
  if s.isEmpty then none
  else s.foldlM (fun acc c => (hexDigitVal? c).map (fun d => 16 * acc + d)) 0

/-- Embedding of the scaling test of `Omron._variable_area_write`
(device.py lines 266-269), with Python short-circuit evaluation; none
models an exception raised by int() on a non-digit character.  When the
family character is E and the sixth character is the digit 6, the source
falls through to comparing the single character var_addr[4:5] with 14,
which no one-digit number can equal, and the remaining disjunct compares
the same family character with 1, which is false in that branch. -/
def scale_cond (var_addr : List Char) : Option Bool :=
  if var_addr.getD 1 ' ' = 'E' then do
    let d5 ← decDigitVal? (var_addr.getD 5 ' ')
    if d5 ≠ 6 then pure true
    else do
      let d4 ← decDigitVal? (var_addr.getD 4 ' ')
      if d4 ≠ 14 then pure true
      else pure false
  else if var_addr.getD 1 ' ' = '1' then do
    let e5 ← hexDigitVal? (var_addr.getD 5 ' ')
    pure (e5 ≠ 14)
  else pure false

/-- A rational is acceptable to the Python builtin hex() only when it is an
integer; hex() on a float raises TypeError, modelled by none. -/
def toInt? (q : ℚ) : Option Int :=
  if q.den = 1 then some q.num else none

/-- Embedding of the per-value encoding loop of
`Omron._variable_area_write` (device.py lines 262-278): multiply the value
by ten and truncate unless scale_cond exempts the address, then render it
as hex(...)[2:], pad with zeros to 8 digits for a C family or 4 digits for
an 8 family, and uppercase.  none models the exceptions of the source
(int() or hex() on unsuitable values, and the fall-through for a family
character with no branch, where iterating the untouched int value raises
TypeError). -/
def render_value (var_addr : List Char) (n : Int) : Option (List Char) :=
  if var_addr.getD 0 ' ' = 'C' then some ((padLeftZero 8 (pyHexSlice2 n)).map pyUpper)
  else if var_addr.getD 0 ' ' = '8' then some ((padLeftZero 4 (pyHexSlice2 n)).map pyUpper)
  else none

/-- Embedding of the per-value encoding loop of
`Omron._variable_area_write` (device.py lines 262-278): multiply the value
by ten and truncate unless scale_cond exempts the address, then render it
through render_value.  none models the exceptions of the source: int() and
hex() on unsuitable values, and the fall-through for a family character
with no branch, where iterating the untouched int value raises
TypeError. -/
def encode_set_value (var_addr : List Char) (set_value : ℚ) : Option (List Char) := do
  let b ← scale_cond var_addr
  let v : ℚ := if b then ((pytrunc (set_value * 10) : Int) : ℚ) else set_value
  let n ← toInt? v
  render_value var_addr n

theorem pytrunc_intCast (m : ℤ) : pytrunc ((m : ℤ) : ℚ) = m := by
  simp [pytrunc, Rat.num_intCast, Rat.den_intCast, Int.tdiv_one]

theorem toInt?_intCast (m : ℤ) : toInt? ((m : ℤ) : ℚ) = some m := by
  simp [toInt?, Rat.den_intCast, Rat.num_intCast]

theorem pytrunc_den_one (q : ℚ) (h : q.den = 1) : pytrunc q = q.num := by
  simp [pytrunc, h, Int.tdiv_one]

theorem encode_set_value_scaled (var_addr : List Char) (q : ℚ)
    (h : scale_cond var_addr = some true) :
    encode_set_value var_addr q = render_value var_addr (pytrunc (q * 10)) := by
  unfold encode_set_value
  rw [h]
  simp only [Option.bind, if_pos rfl, toInt?_intCast]
  rfl

theorem encode_set_value_unscaled (var_addr : List Char) (q : ℚ)
    (h : scale_cond var_addr = some false) :
    encode_set_value var_addr q = (toInt? q).bind (render_value var_addr) := by
  unfold encode_set_value
  rw [h]
  simp only [Option.bind]
  rfl

theorem scale_cond_E_family (c0 c2 c3 c4 c5 : Char)
    (h4a : 48 ≤ c4.toNat) (h4b : c4.toNat ≤ 57)
    (h5a : 48 ≤ c5.toNat) (h5b : c5.toNat ≤ 57) :
    scale_cond [c0, 'E', c2, c3, c4, c5] = some true := by
  unfold scale_cond decDigitVal?
  simp only [List.getD_cons_succ, List.getD_cons_zero, if_true]
  rw [if_pos (⟨h5a, h5b⟩ : 48 ≤ c5.toNat ∧ c5.toNat ≤ 57),
    if_pos (⟨h4a, h4b⟩ : 48 ≤ c4.toNat ∧ c4.toNat ≤ 57)]
  simp only [Option.bind_eq_bind, Option.some_bind]
  by_cases h6 : c5.toNat - 48 ≠ 6
  · rw [if_pos h6]; rfl
  · rw [if_neg h6, if_pos (show c4.toNat - 48 ≠ 14 by omega)]; rfl

theorem scale_cond_1_family (c0 c2 c3 c4 c5 : Char) (d : Nat)
    (hd : hexDigitVal? c5 = some d) :
    scale_cond [c0, '1', c2, c3, c4, c5] = some (decide (d ≠ 14)) := by
  unfold scale_cond
  simp only [List.getD_cons_succ, List.getD_cons_zero, if_true]
  rw [hd]
  rfl

theorem scale_cond_other_family (a : List Char)
    (h1 : a.getD 1 ' ' ≠ 'E') (h2 : a.getD 1 ' ' ≠ '1') :
    scale_cond a = some false := by
  unfold scale_cond
  rw [if_neg h1, if_neg h2]
  rfl

/-- C4 (amended): in `Omron._variable_area_write` every value written to
the monitor family (second address character E) is multiplied by 10 before
hex-encoding — including the status and version fields, because the test
in the source can never reject an E-family address whose last two
characters are decimal digits — and every value written to the setting
family (second character 1) is multiplied by 10 except at the
heater-burnout-threshold offset whose last character has hex value 14;
values of any other family are encoded without scaling; each value is
hex-encoded to 8 digits when the family code starts with C and to 4 digits
when it starts with 8, as the concrete encodings show. -/
theorem C4_write_scaling_amended :
    (∀ c0 c2 c3 c4 c5 : Char,
      48 ≤ c4.toNat → c4.toNat ≤ 57 → 48 ≤ c5.toNat → c5.toNat ≤ 57 →
      scale_cond [c0, 'E', c2, c3, c4, c5] = some true) ∧
    (∀ (c0 c2 c3 c4 c5 : Char) (d : Nat), hexDigitVal? c5 = some d →
      scale_cond [c0, '1', c2, c3, c4, c5] = some (decide (d ≠ 14))) ∧
    (∀ a : List Char, a.getD 1 ' ' ≠ 'E' → a.getD 1 ' ' ≠ '1' →
      scale_cond a = some false) ∧
    encode_set_value ("CE0006".toList) 1 = some ("0000000A".toList) ∧
    encode_set_value ("CE0014".toList) 1 = some ("0000000A".toList) ∧
    encode_set_value ("C1000E".toList) 300 = some ("0000012C".toList) ∧
    encode_set_value ("81000C".toList) 10 = some ("0064".toList) := by
  have m1 : ((1 : ℚ) * 10) = ((10 : ℤ) : ℚ) := by norm_num
  have m2 : ((10 : ℚ) * 10) = ((100 : ℤ) : ℚ) := by norm_num
  have m3 : (300 : ℚ) = ((300 : ℤ) : ℚ) := by norm_num
  refine ⟨fun c0 c2 c3 c4 c5 h4a h4b h5a h5b =>
      scale_cond_E_family c0 c2 c3 c4 c5 h4a h4b h5a h5b,
    fun c0 c2 c3 c4 c5 d hd => scale_cond_1_family c0 c2 c3 c4 c5 d hd,
    fun a h1 h2 => scale_cond_other_family a h1 h2, ?_, ?_, ?_, ?_⟩
  · rw [encode_set_value_scaled _ _ (by decide), m1, pytrunc_intCast]
    decide
  · rw [encode_set_value_scaled _ _ (by decide), m1, pytrunc_intCast]
    decide
  · rw [encode_set_value_unscaled _ _ (by decide), m3, toInt?_intCast]
    simp only [Option.bind]
    decide
  · rw [encode_set_value_scaled _ _ (by decide), m2, pytrunc_intCast]
    decide

/-- Witness for C4 (amended) at concrete characters: the Status address
CE0006 satisfies the digit bounds and is scaled, the heater-burnout
threshold address C1000E is not. -/
theorem C4_write_scaling_amended_witness :
    (48 ≤ '6'.toNat ∧ '6'.toNat ≤ 57 ∧ 48 ≤ '0'.toNat ∧ '0'.toNat ≤ 57) ∧
    scale_cond ("CE0006".toList) = some true ∧
    scale_cond ("C1000E".toList) = some false := by
  refine ⟨by decide, ?_, ?_⟩
  · exact C4_write_scaling_amended.1 'C' '0' '0' '0' '6'
      (by decide) (by decide) (by decide) (by decide)
  · have h := C4_write_scaling_amended.2.1 'C' '0' '0' '0' 'E' 14 (by decide)
    simpa using h

/-- C4 counterexample: writing the value 1 to the Status address CE0006
produces the scaled payload 0000000A, not the unscaled payload 00000001
that the claim requires for the status field (the claim also requires the
version field CE0014 to be unscaled, and it is scaled the same way). -/
theorem C4_write_scaling_counterexample :
    encode_set_value ("CE0006".toList) 1 = some ("0000000A".toList) ∧
    some ("0000000A".toList) ≠ some ("00000001".toList) := by
  constructor
  · have m1 : ((1 : ℚ) * 10) = ((10 : ℤ) : ℚ) := by norm_num
    rw [encode_set_value_scaled _ _ (by decide), m1, pytrunc_intCast]
    decide
  · decide

/-- Value of a most-significant-first base-16 digit sequence. -/
def digitsVal (ds : List Nat) : Nat :=
  ds.foldl (fun a d => 16 * a + d) 0

theorem digitsVal_append (xs : List Nat) (d : Nat) :
    digitsVal (xs ++ [d]) = 16 * digitsVal xs + d := by
  simp [digitsVal, List.foldl_append]

theorem digitsVal_replicate_zero (ds : List Nat) :
    ∀ k : Nat, digitsVal (List.replicate k 0 ++ ds) = digitsVal ds := by
  intro k
  induction k with
  | zero => simp
  | succ k ih =>
    simp only [List.replicate_succ, List.cons_append, digitsVal, List.foldl_cons] at ih ⊢
    simpa using ih

theorem digitsVal_toHexRevF : ∀ f n : Nat, n ≤ f →
    digitsVal ((toHexRevF f n).reverse) = n := by
  intro f
  induction f with
  | zero =>
    intro n hn
    interval_cases n
    simp [toHexRevF, digitsVal]
  | succ f ih =>
    intro n hn
    by_cases h0 : n = 0
    · subst h0; simp [toHexRevF, digitsVal]
    · have hstep : toHexRevF (f + 1) n = n % 16 :: toHexRevF f (n / 16) := by
        simp [toHexRevF, h0]
      have hdiv : n / 16 ≤ f := by
        have := Nat.div_lt_self (Nat.pos_of_ne_zero h0) (show 1 < 16 by norm_num)
        omega
      rw [hstep, List.reverse_cons, digitsVal_append, ih (n / 16) hdiv]
      exact Nat.div_add_mod n 16

theorem toHexRevF_mem_lt : ∀ f n d : Nat, d ∈ toHexRevF f n → d < 16 := by
  intro f
  induction f with
  | zero => intro n d hd; simp [toHexRevF] at hd
  | succ f ih =>
    intro n d hd
    by_cases h0 : n = 0
    · subst h0; simp [toHexRevF] at hd
    · simp only [toHexRevF, if_neg h0, List.mem_cons] at hd
      rcases hd with h | h
      · subst h; exact Nat.mod_lt _ (by norm_num)
      · exact ih _ _ h

theorem toHexRevF_length_le : ∀ f n k : Nat, n < 16 ^ k → (toHexRevF f n).length ≤ k := by
  intro f
  induction f with
  | zero => intro n k _; simp [toHexRevF]
  | succ f ih =>
    intro n k hk
    by_cases h0 : n = 0
    · subst h0; simp [toHexRevF]
    · have hk0 : k ≠ 0 := by
        rintro rfl
        simp only [pow_zero] at hk
        omega
      obtain ⟨k2, rfl⟩ : ∃ k2, k = k2 + 1 := ⟨k - 1, by omega⟩
      have hdiv : n / 16 < 16 ^ k2 := by
        rw [Nat.div_lt_iff_lt_mul (by norm_num : (0:ℕ) < 16)]
        calc n < 16 ^ (k2 + 1) := hk
        _ = 16 ^ k2 * 16 := by ring
      simp only [toHexRevF, if_neg h0, List.length_cons]
      have := ih (n / 16) k2 hdiv
      omega

theorem digitsVal_hexDigits (n : Nat) : digitsVal (hexDigits n) = n := by
  by_cases h : n = 0
  · subst h; simp [hexDigits, digitsVal]
  · simp only [hexDigits, if_neg h]
    exact digitsVal_toHexRevF n n le_rfl

theorem hexDigits_ne_nil (n : Nat) : hexDigits n ≠ [] := by
  by_cases h : n = 0
  · subst h; simp [hexDigits]
  · simp only [hexDigits, if_neg h]
    intro hc
    have hv := digitsVal_toHexRevF n n le_rfl
    rw [hc] at hv
    simp [digitsVal] at hv
    exact h hv.symm

theorem hexDigits_mem_lt (n d : Nat) (hd : d ∈ hexDigits n) : d < 16 := by
  by_cases h : n = 0
  · subst h; simp [hexDigits] at hd; omega
  · simp only [hexDigits, if_neg h, List.mem_reverse] at hd
    exact toHexRevF_mem_lt n n d hd

theorem hexDigits_length_le (n k : Nat) (hk : 1 ≤ k) (hn : n < 16 ^ k) :
    (hexDigits n).length ≤ k := by
  by_cases h : n = 0
  · subst h; simpa [hexDigits] using hk
  · simp only [hexDigits, if_neg h, List.length_reverse]
    exact toHexRevF_length_le n n k hn

/-- Uppercased hexadecimal digit character, as the source produces by
rendering with hex() and then applying str.upper. -/
def upDigit (d : Nat) : Char :=
  pyUpper (hexCharLower d)

theorem hexDigitVal?_upDigit : ∀ d : Nat, d < 16 → hexDigitVal? (upDigit d) = some d := by
  decide

theorem foldlM_upDigits (ds : List Nat) :
    ∀ acc : Nat, (∀ d ∈ ds, d < 16) →
    List.foldlM (fun acc c => (hexDigitVal? c).map (fun d => 16 * acc + d)) acc
      (ds.map upDigit) = some (ds.foldl (fun a d => 16 * a + d) acc) := by
  induction ds with
  | nil => intro acc _; simp
  | cons d ds ih =>
    intro acc hlt
    have hd : d < 16 := hlt d (by simp)
    simp only [List.map_cons, List.foldlM_cons, hexDigitVal?_upDigit d hd,
      Option.map_some', Option.bind_eq_bind, Option.some_bind, List.foldl_cons]
    exact ih (16 * acc + d) (fun x hx => hlt x (by simp [hx]))

theorem pyIntHex?_upDigits (ds : List Nat) (h16 : ∀ d ∈ ds, d < 16) (hne : ds ≠ []) :
    pyIntHex? (ds.map upDigit) = some (digitsVal ds) := by
  unfold pyIntHex?
  rw [if_neg (by simp [List.isEmpty_iff, hne])]
  exact foldlM_upDigits ds 0 h16

theorem payload_eq_upDigits (w m : Nat) :
    (padLeftZero w ((hexDigits m).map hexCharLower)).map pyUpper =
      (List.replicate (w - (hexDigits m).length) 0 ++ hexDigits m).map upDigit := by
  rw [padLeftZero, List.length_map, List.map_append, List.map_append,
    List.map_replicate, List.map_replicate, List.map_map]
  rfl

/-- C7: encoding a value for a div-by-10 field of a 4-hex-digit family (the
write path of `Omron._variable_area_write` at the 8-family address 810000)
and then decoding the payload the way the read path does (int with base 16
followed by division by ten) returns the value exactly, whenever ten times
the value is a nonnegative integer below 16^4; in particular this holds for
12.5, see the witness. -/
theorem C7_div10_roundtrip (q : ℚ) (h0 : 0 ≤ q) (hden : (q * 10).den = 1)
    (hlt : (q * 10).num < 65536) :
    ∃ p : List Char, encode_set_value ("810000".toList) q = some p ∧
      p.length = 4 ∧ (pyIntHex? p).map (fun n => (n : ℚ) / 10) = some q := by
  rw [encode_set_value_scaled _ _ (by decide), pytrunc_den_one _ hden]
  have hq10 : (0 : ℚ) ≤ q * 10 := by positivity
  have hnum0 : 0 ≤ (q * 10).num := Rat.num_nonneg.mpr hq10
  set m : Nat := (q * 10).num.toNat with hm
  have hmn : (m : ℤ) = (q * 10).num := Int.toNat_of_nonneg hnum0
  have hm16 : m < 65536 := by omega
  have hrv : render_value ("810000".toList) (q * 10).num =
      some ((padLeftZero 4 (pyHexSlice2 (q * 10).num)).map pyUpper) := by
    unfold render_value
    rw [if_neg (by decide), if_pos (by decide)]
  have hslice : pyHexSlice2 (q * 10).num = (hexDigits m).map hexCharLower := by
    unfold pyHexSlice2
    rw [if_pos hnum0]
  have hlen4 : (hexDigits m).length ≤ 4 :=
    hexDigits_length_le m 4 (by norm_num) (by norm_num; omega)
  refine ⟨(padLeftZero 4 (pyHexSlice2 (q * 10).num)).map pyUpper, hrv, ?_, ?_⟩
  · rw [hslice, padLeftZero]
    simp only [List.length_map, List.length_append, List.length_replicate]
    omega
  · rw [hslice, payload_eq_upDigits,
      pyIntHex?_upDigits _
        (by
          intro d hd
          rcases List.mem_append.mp hd with h | h
          · have := List.eq_of_mem_replicate h
            omega
          · exact hexDigits_mem_lt m d h)
        (by simp [hexDigits_ne_nil m]),
      digitsVal_replicate_zero, digitsVal_hexDigits]
    have hcast : ((q * 10).num : ℚ) = q * 10 := by
      have hd := Rat.num_div_den (q * 10)
      rw [hden] at hd
      simpa using hd
    have hmq : (m : ℚ) = q * 10 := by
      rw [← hcast]
      exact_mod_cast congrArg (fun z : ℤ => (z : ℚ)) hmn
    have hdiv10 : (m : ℚ) / 10 = q := by
      rw [hmq]
      field_simp
    simp [hdiv10]

/-- Witness for C7 at the value 12.5. -/
theorem C7_div10_roundtrip_witness :
    (0 : ℚ) ≤ 25 / 2 ∧
    ∃ p : List Char, encode_set_value ("810000".toList) (25 / 2) = some p ∧
      p.length = 4 ∧ (pyIntHex? p).map (fun n => (n : ℚ) / 10) = some (25 / 2) := by
  have h : (25 / 2 * 10 : ℚ) = ((125 : ℤ) : ℚ) := by norm_num
  exact ⟨by norm_num,
    C7_div10_roundtrip (25 / 2) (by norm_num)
      (by rw [h]; exact Rat.den_intCast 125)
      (by rw [h, Rat.num_intCast]; norm_num)⟩

/-- Python slice removing the last k elements of a list. -/
def dropLastN (l : List Nat) (k : Nat) : List Nat :=
  l.take (l.length - k)

/-- End-code field of a response: the source expression ret[5:7]. -/
def endCodeOf (ret : List Nat) : List Nat :=
  (ret.drop 5).take 2

/-- Response-code field of a response: the source expression ret[11:15]. -/
def respCodeOf (ret : List Nat) : List Nat :=
  (ret.drop 11).take 4

/-- End-code table of `Omron._check_end_code` (device.py lines 176-186),
with the two-character ASCII codes as byte pairs. -/
def error_codes : List (List Nat × String) := [
  ([48, 48], "Normal Completion"),
  ([48, 70], "FINS command error"),
  ([49, 48], "Parity error"),
  ([49, 49], "Framing error"),
  ([49, 50], "Overrun error"),
  ([49, 51], "BCC error"),
  ([49, 52], "Format error"),
  ([49, 54], "Sub-address error"),
  ([49, 56], "Frame length error")]

/-- Response-code table of `Omron._check_response_code` (device.py lines
209-217), with the four-character ASCII codes as byte quadruples. -/
def response_codes : List (List Nat × String) := [
  ([49, 48, 48, 49], "Command length too long"),
  ([49, 48, 48, 50], "Command length too short"),
  ([49, 48, 48, 51], "Number of elements/Number of data do not agree"),
  ([49, 49, 48, 49], "Area Type Error"),
  ([49, 49, 48, 66], "Response length too long"),
  ([49, 49, 48, 48], "Parameter error"),
  ([50, 50, 48, 51], "Operation error")]

/-- Python dict.get(code, "Unknown Error") over a code table. -/
def codeName (tbl : List (List Nat × String)) (code : List Nat) : String :=
  ((tbl.find? (fun p => p.1 == code)).map (fun p => p.2)).getD "Unknown Error"

/-- Embedding of `Omron._check_end_code` (device.py lines 161-192): raise
(error) with the name of the fault unless the end-code field is the ASCII
pair 00. -/
def check_end_code (ret : List Nat) : Except String Unit :=
  if endCodeOf ret = [48, 48] then Except.ok ()
  else Except.error (codeName error_codes (endCodeOf ret))

/-- Embedding of `Omron._check_response_code` (device.py lines 194-224):
raise (error) with the name of the fault unless the response-code field is
the ASCII quadruple 0000. -/
def check_response_code (ret : List Nat) : Except String Unit :=
  if respCodeOf ret = [48, 48, 48, 48] then Except.ok ()
  else Except.error (codeName response_codes (respCodeOf ret))

/-- Response handling of `Omron._variable_area_read` (device.py lines
324-329): both checks run, then the payload resp[15:-2] is sliced for
decoding. -/
def variable_area_read_resp (resp : List Nat) : Except String (List Nat) := do
  check_end_code resp
  check_response_code resp
  Except.ok (dropLastN (resp.drop 15) 2)

/-- Response handling of `Omron._variable_area_write` (device.py lines
283-288): both checks run; a write decodes no payload. -/
def variable_area_write_resp (resp : List Nat) : Except String Unit := do
  check_end_code resp
  check_response_code resp
  Except.ok ()

/-- Response handling of the identification handshake in
`Omron.new_device` (device.py lines 67-70): both checks run, then the
model string resp[15:-6] is decoded. -/
def new_device_resp (resp : List Nat) : Except String (List Nat) := do
  check_end_code resp
  check_response_code resp
  Except.ok (dropLastN (resp.drop 15) 6)

/-- Response handling of `Omron.controller_attribute_read` (device.py
lines 412-429): only the response-code check runs before the payload
resp[15:-6] is decoded; the end-code field is never inspected. -/
def controller_attribute_read_resp (resp : List Nat) : Except String (List Nat) := do
  check_response_code resp
  Except.ok (dropLastN (resp.drop 15) 6)

/-- Response handling of `Omron.controller_status_read` (device.py lines
431-447): only the response-code check runs before the payload resp[15:-4]
is decoded. -/
def controller_status_read_resp (resp : List Nat) : Except String (List Nat) := do
  check_response_code resp
  Except.ok (dropLastN (resp.drop 15) 4)

/-- Whether a call completed without raising. -/
def isOkE {α : Type} : Except String α → Bool
  | Except.ok _ => true
  | Except.error _ => false

/-- C3 (amended): the variable-area read path, the variable-area write
path and the identification handshake check the end-code table and the
response-code table before any payload decoding and fail immediately on
either non-zero code with an error naming that fault; controller attribute
read and controller status read check only the response-code table, so a
zero response code lets them succeed and decode the payload even when the
end code is non-zero. -/
theorem C3_code_checks_amended (resp : List Nat) :
    (isOkE (variable_area_read_resp resp) = true ↔
      endCodeOf resp = [48, 48] ∧ respCodeOf resp = [48, 48, 48, 48]) ∧
    (isOkE (variable_area_write_resp resp) = true ↔
      endCodeOf resp = [48, 48] ∧ respCodeOf resp = [48, 48, 48, 48]) ∧
    (isOkE (new_device_resp resp) = true ↔
      endCodeOf resp = [48, 48] ∧ respCodeOf resp = [48, 48, 48, 48]) ∧
    (isOkE (controller_attribute_read_resp resp) = true ↔
      respCodeOf resp = [48, 48, 48, 48]) ∧
    (isOkE (controller_status_read_resp resp) = true ↔
      respCodeOf resp = [48, 48, 48, 48]) := by
  unfold variable_area_read_resp variable_area_write_resp new_device_resp
    controller_attribute_read_resp controller_status_read_resp
    check_end_code check_response_code
  by_cases h1 : endCodeOf resp = [48, 48] <;>
    by_cases h2 : respCodeOf resp = [48, 48, 48, 48] <;>
      simp [h1, h2, isOkE, Except.bind, bind]

/-- C3 counterexample: a concrete response whose end-code field is 10
(parity error) but whose response-code field is 0000 passes
`Omron.controller_attribute_read` and has its payload decoded, although
the claim requires every command path to fail immediately on a non-zero
end code. -/
theorem C3_attribute_read_skips_end_code :
    controller_attribute_read_resp
        [2, 48, 49, 48, 48, 49, 48, 48, 53, 48, 51, 48, 48, 48, 48,
         71, 51, 80, 87, 32, 32, 32, 32, 3, 65] =
      Except.ok [71, 51, 80, 87] ∧
    endCodeOf
        [2, 48, 49, 48, 48, 49, 48, 48, 53, 48, 51, 48, 48, 48, 48,
         71, 51, 80, 87, 32, 32, 32, 32, 3, 65] ≠ [48, 48] := by
  exact ⟨rfl, by decide⟩

/-- Python dict assignment d[k] = v on an insertion-ordered association
list: update the existing entry in place, else append a new one. -/
def dict_set {α : Type} (d : List (String × α)) (k : String) (v : α) : List (String × α) :=
  if d.any (fun p => p.1 == k) then d.map (fun p => if p.1 == k then (k, v) else p)
  else d ++ [(k, v)]

/-- Python dict construction from a pair sequence: later duplicate keys
overwrite the value while keeping the first position, as dict(zip(...))
does. -/
def py_dict {α : Type} (ps : List (String × α)) : List (String × α) :=
  ps.foldl (fun d p => dict_set d p.1 p.2) []

/-- Python del d[k]. -/
def dict_del {α : Type} (d : List (String × α)) (k : String) : List (String × α) :=
  d.filter (fun p => p.1 != k)

/-- Python d[k] lookup returning none when the key is missing. -/
def dict_get? {α : Type} (d : List (String × α)) (k : String) : Option α :=
  (d.find? (fun p => p.1 == k)).map (fun p => p.2)

/-- Python d.update(d2) on insertion-ordered dictionaries. -/
def dict_update {α : Type} (d d2 : List (String × α)) : List (String × α) :=
  d2.foldl (fun acc p => dict_set acc p.1 p.2) d

/-- Embedding of the bit-decoding loop of `Omron.status` (device.py lines
388-407): position i of the list holds the decoded state of bit i of the
value, with the reserved bits 7 and 12-15 left at the initial Q marker. -/
def statusList (value : Nat) : List String :=
  (List.range 32).map (fun i =>
    if i = 7 ∨ i = 12 ∨ i = 13 ∨ i = 14 ∨ i = 15 then "Q"
    else if i < 16 then (if value.testBit i then "Error" else "No Error")
    else if i = 19 then
      (if value.testBit i then "Initial Setting Level" else "Operation Level")
    else if i = 20 then (if value.testBit i then "Manual" else "Automatic")
    else if i = 21 then
      (if value.testBit i then "Optimum Cycle Control" else "Phase Control")
    else (if value.testBit i then "ON" else "OFF"))

/-- Embedding of `Omron.status` (device.py lines 379-410), taking the
status-label table as a parameter because the codes.json data file that
supplies it is not under src: the result is dict(zip(labels, statusList))
with the reserved key removed by del. -/
def status (labels : List String) (value : Nat) : List (String × String) :=
  dict_del (py_dict (labels.zip (statusList value))) "Not used."

theorem dict_get?_dict_del {α : Type} (d : List (String × α)) (k : String) :
    dict_get? (dict_del d k) k = none := by
  unfold dict_get? dict_del
  rw [Option.map_eq_none', List.find?_eq_none]
  intro p hp
  have hne := (List.mem_filter.mp hp).2
  simp only [bne_iff_ne, ne_eq] at hne
  simp [hne]

/-- C8: for every input value, the mapping returned by `Omron.status`
contains no entry derived from bit 7 or from bits 12 through 15 — the keys
those bits would contribute are the reserved label, which is deleted — and
the reserved label Not used. never appears as a key of the result. -/
theorem C8_status_reserved_absent (labels : List String) (value : Nat)
    (_hlen : labels.length = 32)
    (hres : ∀ i ∈ ([7, 12, 13, 14, 15] : List Nat), labels.getD i "" = "Not used.") :
    (∀ i ∈ ([7, 12, 13, 14, 15] : List Nat),
      dict_get? (status labels value) (labels.getD i "") = none) ∧
    dict_get? (status labels value) "Not used." = none := by
  have hdel : dict_get? (status labels value) "Not used." = none :=
    dict_get?_dict_del _ _
  refine ⟨?_, hdel⟩
  intro i hi
  rw [hres i hi]
  exact hdel

/-- Modelled from the spec: the status_labels table of codes.json is not
under src; section 6 of the spec describes it as the 32-entry status
bit-label table consumed by `Omron.status`, with the reserved positions
(bits 7 and 12-15) labelled Not used. — the spec does not give the other
label texts, so distinct placeholder names stand in for them. -/
def status_labels : List String :=
  (List.range 32).map (fun i =>
    if i = 7 ∨ i = 12 ∨ i = 13 ∨ i = 14 ∨ i = 15 then "Not used."
    else "Status Bit " ++ Nat.repr i)

/-- Witness for C8 at the modelled label table and the value 41. -/
theorem C8_status_reserved_absent_witness :
    status_labels.length = 32 ∧
    dict_get? (status status_labels 41) "Not used." = none :=
  ⟨by decide, (C8_status_reserved_absent status_labels 41 (by decide) (by decide)).2⟩

/-- Decoded value of one variable, as the source returns them: notation
strings stay strings, Python true division yields floats (exact rationals
here), and untouched raw decodes stay ints. -/
inductive Value where
  | vstr : String → Value
  | num : ℚ → Value
  | int : Nat → Value
deriving DecidableEq

/-- Monitor-family rows of the addresses table (variable types CE and 8E),
as in the table inlined in the historical device.py of the repository (the
codes.json file that the current device.py loads is not under src; the
historical inline table and the spec give the same family layout).
Offsets are the numeric values of the four-hex-digit address strings. -/
def monitorEntries : List (Nat × String) := [
  (0, "Input Monitor"), (1, "Internal Duty Monitor"), (2, "Output Monitor"),
  (3, "Phase Angle Monitor"), (4, "Current Monitor"),
  (5, "Total Run Time Monitor"), (6, "Status"),
  (7, "Heater characteristic of resistance"), (20, "Version")]

/-- Setting-family rows of the addresses table (variable types C1 and 81). -/
def settingEntries : List (Nat × String) := [
  (0, "Communications Main Setting 1"), (1, "Communications Main Setting 2"),
  (2, "Communications Main Setting 3"), (3, "Communications Main Setting 4"),
  (4, "Communications Main Setting 5"), (5, "Communications Main Setting 6"),
  (6, "Communications Main Setting 7"), (7, "Communications Main Setting 8"),
  (8, "Internal Duty Setting"), (9, "Base-Up Value"),
  (10, "Soft-start Up Time"), (11, "Soft-start Down Time"),
  (12, "Output Upper Limit"), (13, "Output Lower Limit"),
  (14, "Heater Burnout Threshold"),
  (15, "Heater Characteristic Resistance for Phase Control"),
  (16, "Heater Characteristic Resistance for Optimum Cycle Control"),
  (17, "Heater Burnout Detection Lower Limit")]

/-- Initial-setting-family rows of the addresses table (variable types C3
and 83). -/
def initialEntries : List (Nat × String) := [
  (0, "Communications Data Length"), (1, "Communications Stop Bits"),
  (2, "Communications Parity"), (3, "Send Wait Time"),
  (4, "Communications Timeout Time"), (5, "Communications Unit Number"),
  (6, "Communications Baud Rate"), (7, "Communications Main Setting Number"),
  (8, "External Duty Input Enable/Disable"), (9, "Output Mode Selection"),
  (10, "Input Digital Filter Time Constant"), (11, "Input Signal Type"),
  (12, "Main Setting Automatic Input Selection"),
  (13, "Main Setting Manual Input Selection"), (14, "Control Method Default"),
  (15, "Main Setting Automatic/Manual Default"),
  (16, "Number of Alarms for Heater Burnout Detection"),
  (17, "Load Current Upper Limit"), (18, "Event Input Assignment"),
  (19, "Alarm Output Open in Alarm"), (20, "Heater Burnout Alarm Operation"),
  (21, "Total Run Time Exceeded Alarm Operation"),
  (22, "Total Run Time Alarm Set Value"),
  (23, "External Input Range Alarm Operation"),
  (24, "External Duty Input Alarm Operation"),
  (25, "SSR short circuit detection enabled"),
  (26, "SSR open failure detection"), (27, "CT failure detection")]

/-- The addresses table: variable-type code to offset-to-name rows, in the
insertion order of the source table. -/
def addresses : List (String × List (Nat × String)) := [
  ("CE", monitorEntries), ("8E", monitorEntries),
  ("C1", settingEntries), ("81", settingEntries),
  ("C3", initialEntries), ("83", initialEntries)]

/-- Name of the variable at an offset of a family, the source lookup
self.addresses[var_type][addr]; none models the KeyError. -/
def addrName (var_type : String) (off : Nat) : Option String := do
  let row ← (addresses.find? (fun p => p.1 == var_type)).map (fun p => p.2)
  (row.find? (fun e => e.1 == off)).map (fun e => e.2)

/-- Modelled from the spec: the C383_notation table of codes.json is not
under src; section 6 of the spec describes it as a value-to-human-string
notation table for the initial-setting family and section 4.3 names the
strings Even and Odd for Communications Parity (a None setting completes
the usual parity triple).  The table is called C383_notes here. -/
def C383_notes : List (String × List (String × String)) := [
  ("Communications Parity", [("0", "Even"), ("1", "Odd"), ("2", "None")])]

/-- Status mapping lifted to decoded values, as returned into the result
of a variable-area read. -/
def statusAssocV (value : Nat) : List (String × Value) :=
  (status status_labels value).map (fun p => (p.1, Value.vstr p.2))

/-- Embedding of the conversion loop of `Omron._variable_area_read` for
the monitor and setting families (device.py lines 352-361, the branch for
variable types whose second character is E or 1): entries are converted in
place in iteration order — Version divides by 100, Heater Burnout
Threshold stays raw, everything else divides by 10 — except that reaching
a Status entry returns the decoded status mapping alone. -/
def convertE1Go : List (String × Nat) → List (String × Value) → List (String × Value)
  | [], acc => acc
  | (key, v) :: rest, acc =>
    if key = "Version" then convertE1Go rest (acc ++ [(key, Value.num ((v : ℚ) / 100))])
    else if key = "Status" then statusAssocV v
    else if key = "Heater Burnout Threshold" then
      convertE1Go rest (acc ++ [(key, Value.int v)])
    else convertE1Go rest (acc ++ [(key, Value.num ((v : ℚ) / 10))])

/-- The conversion loop of the monitor and setting families, started on the
decoded dictionary as in the source. -/
def convertE1 (items : List (String × Nat)) : List (String × Value) :=
  convertE1Go items []

/-- Notation lookup of the conversion loop for the initial-setting family:
the source reads C383_notation[key][str(value)] and treats a KeyError at
either level as no note. -/
def noteFor (key : String) (v : Nat) : Option String := do
  let row ← (C383_notes.find? (fun p => p.1 == key)).map (fun p => p.2)
  (row.find? (fun e => e.1 == Nat.repr v)).map (fun e => e.2)

/-- Embedding of the conversion loop of `Omron._variable_area_read` for
the initial-setting family (device.py lines 362-376): a notation string
wins, three named keys divide by ten, everything else stays the raw
integer. -/
def convertC3 (items : List (String × Nat)) : List (String × Value) :=
  items.map (fun p =>
    match noteFor p.1 p.2 with
    | some note => (p.1, Value.vstr note)
    | none =>
      if p.1 = "Input Digital Filter Time Constant" ∨
          p.1 = "Load Current Upper Limit" ∨
          p.1 = "Total Run Time Alarm Set Value" then
        (p.1, Value.num ((p.2 : ℚ) / 10))
      else (p.1, Value.int p.2))

/-- Embedding of the decode stage of `Omron._variable_area_read`
(device.py lines 329-377) on the payload resp[15:-2]: each element is
sliced at the 8- or 4-hex-digit stride of the family, decoded with int and
base 16, keyed by its name from the addresses table, and the resulting
dictionary is run through the family conversion loop.  The metadata the
source re-reads from the echoed command (variable type, start address,
element count) equals the arguments given here; none models the exceptions
for an unknown family character, a missing address row, or an undecodable
slice. -/
def variable_area_read_model (var_type : String) (read_start num_elem : Nat)
    (payload : List Char) : Option (List (String × Value)) := do
  let items ← (List.range num_elem).mapM (fun i => do
    let w ← if var_type.toList.getD 0 ' ' = 'C' then some 8
            else if var_type.toList.getD 0 ' ' = '8' then some 4
            else none
    let nm ← addrName var_type (read_start + i)
    let v ← pyIntHex? ((payload.drop (w * i)).take w)
    some (nm, v))
  let d := py_dict items
  if var_type.toList.getD 1 ' ' = 'E' ∨ var_type.toList.getD 1 ' ' = '1' then
    some (convertE1 d)
  else some (convertC3 d)

theorem convertE1Go_status (v : Nat) (post : List (String × Nat)) :
    ∀ (pre : List (String × Nat)) (acc : List (String × Value)),
    (∀ p ∈ pre, p.1 ≠ "Status") →
    convertE1Go (pre ++ ("Status", v) :: post) acc = statusAssocV v := by
  intro pre
  induction pre with
  | nil => intro acc _; rfl
  | cons p pre ih =>
    intro acc hpre
    obtain ⟨key, w⟩ := p
    have hks : key ≠ "Status" := hpre (key, w) (by simp)
    have ihs : ∀ acc2, convertE1Go (pre ++ ("Status", v) :: post) acc2 = statusAssocV v :=
      fun acc2 => ih acc2 (fun q hq => hpre q (List.mem_cons_of_mem _ hq))
    simp only [List.cons_append, convertE1Go]
    by_cases h1 : key = "Version"
    · rw [if_pos h1]; exact ihs _
    · rw [if_neg h1, if_neg hks]
      by_cases h2 : key = "Heater Burnout Threshold"
      · rw [if_pos h2]; exact ihs _
      · rw [if_neg h2]; exact ihs _

/-- C9: in the conversion loop of `Omron._variable_area_read` over the
decoded elements of a batched read, reaching an element named Status makes
the method return only the decoded status bit-field mapping; every other
decoded element of the same read, before or after it, is discarded from
the returned mapping. -/
theorem C9_status_discards_batch (pre post : List (String × Nat)) (v : Nat)
    (hpre : ∀ p ∈ pre, p.1 ≠ "Status") :
    convertE1 (pre ++ ("Status", v) :: post) = statusAssocV v :=
  convertE1Go_status v post pre [] hpre

/-- Witness for C9: a three-element batch whose middle element is Status
decodes to the status mapping alone. -/
theorem C9_status_discards_batch_witness :
    convertE1 [("Input Monitor", 2), ("Status", 5),
      ("Heater characteristic of resistance", 9)] = statusAssocV 5 :=
  C9_status_discards_batch [("Input Monitor", 2)]
    [("Heater characteristic of resistance", 9)] 5 (by decide)

/-- A value in the argument mapping of `Omron.set`: either a notation
string or a number. -/
inductive PyVal where
  | s : String → PyVal
  | f : ℚ → PyVal
deriving DecidableEq

/-- Embedding of the notation-encoding pass of `Omron.set` (device.py
lines 562-565): for one entry, every notation table row is scanned and
whenever the current value equals a notation string the entry is
overwritten with that notation key, the running value feeding the later
comparisons. -/
def note_encode (v : PyVal) : PyVal :=
  C383_notes.foldl (fun cur t =>
    t.2.foldl (fun cur2 e => if cur2 = PyVal.s e.2 then PyVal.s e.1 else cur2) cur) v

/-- Effect of `Omron.set` (device.py lines 556-567) on its argument
dictionary: each entry value is overwritten in place by its notation
encoding before the write for that key is issued, so the caller observes
the mutated mapping after the call. -/
def set_transform (comm : List (String × PyVal)) : List (String × PyVal) :=
  comm.map (fun p => (p.1, note_encode p.2))

/-- C10: `Omron.set` overwrites a notation-string entry of the argument
mapping in place with the encoded numeric key before writing — with the
parity example the entry Odd becomes the key 1 — so the dictionary the
caller passed is not left unchanged by the call. -/
theorem C10_set_mutates_argument :
    set_transform [("Communications Parity", PyVal.s "Odd")] =
      [("Communications Parity", PyVal.s "1")] ∧
    set_transform [("Communications Parity", PyVal.s "Odd")] ≠
      [("Communications Parity", PyVal.s "Odd")] := by
  exact ⟨rfl, by decide⟩

/-- One look-ahead round of the coalescing loop of `Omron.get` (device.py
lines 518-524), generalised over the window size: over j below n, whenever
the address start + j occurs in the requested list the batch length
becomes j + 1 and the position of that address is remembered; the Python
variables k and idx enter the round as 1 and a leftover value, here 0. -/
def scanAheadN (comm_list : List Nat) (start n : Nat) : Nat × Nat :=
  (List.range n).foldl (fun s j =>
    if start + j ∈ comm_list then (j + 1, comm_list.indexOf (start + j)) else s) (1, 0)

/-- The look-ahead of the source, a window of range 8. -/
def scanAhead (comm_list : List Nat) (start : Nat) : Nat × Nat :=
  scanAheadN comm_list start 8

/-- The while loop of `Omron.get` (device.py lines 516-529): at list index
i it scans ahead from comm_list[i], issues one read of the computed
length, and jumps past the found address when a batch was formed.  The
loop index strictly increases on sorted duplicate-free lists, so fuel
equal to the list length suffices there; the claims evaluate the loop on
such lists. -/
def getReadsAux (comm_list : List Nat) : Nat → Nat → List (Nat × Nat)
  | 0, _ => []
  | fuel + 1, i =>
    if i < comm_list.length then
      let start := comm_list.getD i 0
      let s := scanAhead comm_list start
      (start, s.1) :: getReadsAux comm_list fuel ((if 1 < s.1 then s.2 else i) + 1)
    else []

/-- Reads issued by `Omron.get` for a resolved address list: the source
sorts the list in place and runs the while loop from index 0.  The sort of
the source is over six-hex-digit uppercase strings, whose order agrees
with the numeric order used here. -/
def coalesce (comm_list : List Nat) : List (Nat × Nat) :=
  let sorted := List.insertionSort (· ≤ ·) comm_list
  getReadsAux sorted sorted.length 0

theorem scanAheadN_spec (l : List Nat) (a : Nat) :
    ∀ n : Nat,
    1 ≤ (scanAheadN l a n).1 ∧
    ((scanAheadN l a n).1 = 1 ∨
      ((scanAheadN l a n).1 - 1 < n ∧ a + ((scanAheadN l a n).1 - 1) ∈ l)) ∧
    (∀ j, j < n → a + j ∈ l → j < (scanAheadN l a n).1) := by
  intro n
  induction n with
  | zero =>
    refine ⟨le_refl 1, Or.inl rfl, ?_⟩
    intro j hj
    omega
  | succ n ih =>
    have hstep : scanAheadN l a (n + 1) =
        (if a + n ∈ l then (n + 1, l.indexOf (a + n)) else scanAheadN l a n) := by
      unfold scanAheadN
      rw [List.range_succ, List.foldl_append]
      rfl
    by_cases hm : a + n ∈ l
    · rw [hstep, if_pos hm]
      refine ⟨by omega, Or.inr ⟨by omega, by simpa using hm⟩, ?_⟩
      intro j hj _
      simpa using hj
    · rw [hstep, if_neg hm]
      obtain ⟨i1, i2, i3⟩ := ih
      refine ⟨i1, ?_, ?_⟩
      · rcases i2 with h | ⟨hlt, hmem⟩
        · exact Or.inl h
        · exact Or.inr ⟨by omega, hmem⟩
      · intro j hj hjm
        rcases Nat.lt_succ_iff_lt_or_eq.mp hj with h | h
        · exact i3 j h hjm
        · subst h; exact absurd hjm hm

/-- C1 (amended): after resolving names to family+offset addresses and
sorting them, the scan of `Omron.get` looks ahead at most 7 further
offsets and issues, per loop round, exactly one variable-area read whose
count k extends from the starting offset through the farthest requested
offset inside that window: 1 ≤ k ≤ 8, every requested offset at distance j
below 8 from the start forces j < k, and when k exceeds 1 the offset at
distance k - 1 was itself requested — offsets strictly between the two may
be absent from the request, so a batched read can cover an offset that was
not requested; requesting the contiguous addresses 8E0000 and 8E0001
(values 9306112 and 9306113) still issues exactly one batched read of
count 2. -/
theorem C1_coalesce_amended :
    (∀ (comm_list : List Nat) (start : Nat),
      1 ≤ (scanAhead comm_list start).1 ∧
      (scanAhead comm_list start).1 ≤ 8 ∧
      (∀ j, j < 8 → start + j ∈ comm_list → j < (scanAhead comm_list start).1) ∧
      (1 < (scanAhead comm_list start).1 →
        start + ((scanAhead comm_list start).1 - 1) ∈ comm_list)) ∧
    coalesce [9306112, 9306113] = [(9306112, 2)] := by
  constructor
  · intro l a
    obtain ⟨h1, h2, h3⟩ := scanAheadN_spec l a 8
    refine ⟨h1, ?_, h3, ?_⟩
    · rcases h2 with h | ⟨hlt, _⟩
      · rw [scanAhead] at *
        omega
      · rw [scanAhead] at *
        omega
    · intro hk
      rcases h2 with h | ⟨_, hmem⟩
      · rw [scanAhead] at *
        omega
      · exact hmem
  · decide

/-- Witness for C1 (amended) at a concrete window: scanning from 9306112
over the list with the gap member 9306114 yields a batch of length 3 whose
last covered offset was requested. -/
theorem C1_coalesce_amended_witness :
    1 < (scanAhead [9306112, 9306114] 9306112).1 ∧
    9306112 + ((scanAhead [9306112, 9306114] 9306112).1 - 1) ∈
      ([9306112, 9306114] : List Nat) :=
  ⟨by decide, (C1_coalesce_amended.1 [9306112, 9306114] 9306112).2.2.2 (by decide)⟩

/-- C1 counterexample: requesting the two addresses 8E0000 and 8E0002
(values 9306112 and 9306114) makes `Omron.get` issue the single batched
read (8E0000, 3), which covers the offset 8E0001 (value 9306113) even
though that offset was not requested — the scan extends to the farthest
requested offset within the window rather than to the longest contiguous
run of requested offsets. -/
theorem C1_coalesce_counterexample :
    coalesce [9306112, 9306114] = [(9306112, 3)] ∧
    9306113 ∉ ([9306112, 9306114] : List Nat) ∧
    9306112 ≤ 9306113 ∧ 9306113 < 9306112 + 3 := by
  exact ⟨by decide, by decide, by decide, by decide⟩

/-- Family tag of a resolved numeric address: the first two of its six
uppercase hex characters, as the source re-reads them from the echoed
command bytes. -/
def famOfAddr (a : Nat) : String :=
  String.mk [upDigit (a / 1048576 % 16), upDigit (a / 65536 % 16)]

/-- Name resolution and deduplication of `Omron.get` (device.py lines
499-512): every requested name is searched through the whole addresses
table, the monitor alias 8E0006 is rewritten to CE0006, and an address is
appended only when neither width variant of it (the same five low digits
under family digit 8 or C) is already present.  Addresses are the numeric
values of the six-hex-digit strings of the source. -/
def resolve (comm : List String) : List Nat :=
  comm.foldl (fun acc c =>
    addresses.foldl (fun acc2 fam =>
      fam.2.foldl (fun acc3 entry =>
        if c = entry.2 then
          let comm_add := 65536 * (pyIntHex? fam.1.toList).getD 0 + entry.1
          let comm_add2 := if comm_add = 9306118 then 13500422 else comm_add
          if 8388608 + comm_add2 % 1048576 ∉ acc3 ∧
              12582912 + comm_add2 % 1048576 ∉ acc3 then acc3 ++ [comm_add2]
          else acc3
        else acc3) acc2) acc) []

/-- Embedding of `Omron.get` (device.py lines 477-542) for a list of
requested names, with the device modelled by an oracle giving the payload
decoded from the response of each issued read (start address, element
count): names are resolved and coalesced, one variable-area read is
decoded per batch and merged with dict.update, keys that are neither
requested nor status labels are deleted, and the count check raises
(none) when it fails; ignoreError is False as by default. -/
def getModel (comm : List String) (oracle : Nat → Nat → List Char) :
    Option (List (String × Value)) := do
  let reads := coalesce (resolve comm)
  let ret ← reads.foldlM (fun acc r => do
    let d ← variable_area_read_model (famOfAddr r.1) (r.1 % 65536) r.2
      (oracle r.1 r.2)
    some (dict_update acc d)) ([] : List (String × Value))
  let filtered := ret.filter (fun p =>
    comm.contains p.1 || status_labels.contains p.1)
  if (¬ "Status" ∈ comm ∧ comm.length ≠ filtered.length) ∨
      ("Status" ∈ comm ∧ comm.length ≠ filtered.length - 16) then none
  else some filtered

theorem convertE1Go_no_status (items : List (String × Nat)) :
    ∀ acc : List (String × Value), (∀ p ∈ items, p.1 ≠ "Status") →
    convertE1Go items acc = acc ++ items.map (fun p =>
      (p.1, if p.1 = "Version" then Value.num ((p.2 : ℚ) / 100)
            else if p.1 = "Heater Burnout Threshold" then Value.int p.2
            else Value.num ((p.2 : ℚ) / 10))) := by
  induction items with
  | nil => intro acc _; simp [convertE1Go]
  | cons p rest ih =>
    intro acc hns
    obtain ⟨key, w⟩ := p
    have hks : key ≠ "Status" := hns (key, w) (by simp)
    have ihs := fun acc2 => ih acc2 (fun q hq => hns q (List.mem_cons_of_mem _ hq))
    simp only [convertE1Go, List.map_cons]
    by_cases h1 : key = "Version"
    · rw [if_pos h1, ihs _]; simp [h1]
    · rw [if_neg h1, if_neg hks]
      by_cases h2 : key = "Heater Burnout Threshold"
      · rw [if_pos h2, ihs _]; simp [h1, h2]
      · rw [if_neg h2, ihs _]; simp [h1, h2]

theorem read_model_single (fam : String) (start : Nat) (p : List Char) (w : Nat)
    (nm : String) (hC : fam.toList.getD 0 ' ' = 'C')
    (hnm : addrName fam start = some nm)
    (hw : pyIntHex? (p.take 8) = some w) :
    variable_area_read_model fam start 1 p =
      (if fam.toList.getD 1 ' ' = 'E' ∨ fam.toList.getD 1 ' ' = '1'
       then some (convertE1 [(nm, w)]) else some (convertC3 [(nm, w)])) := by
  unfold variable_area_read_model
  rw [show List.range 1 = [0] from rfl]
  simp only [List.mapM_cons, List.mapM_nil, hC, if_pos rfl, Nat.mul_zero,
    List.drop_zero, hnm, hw, Option.bind_eq_bind, Option.some_bind,
    Nat.add_zero]
  simp [py_dict, dict_set, convertE1]

set_option maxRecDepth 100000 in
/-- C5: in the conversion of a variable-area read of the
status-version-heater family branch, the key Version divides the raw
integer by 100, the key Status routes through the status decode, the key
Heater Burnout Threshold stays the raw integer, and every other key
divides by 10 — true division, so the divided results are floats; in
particular `Omron.get` for Version and Communications Main Setting 1
returns exactly those two keys, the first divided by 100 and the second
divided by 10. -/
theorem C5_read_scaling :
    (∀ items : List (String × Nat), (∀ p ∈ items, p.1 ≠ "Status") →
      convertE1 items = items.map (fun p =>
        (p.1, if p.1 = "Version" then Value.num ((p.2 : ℚ) / 100)
              else if p.1 = "Heater Burnout Threshold" then Value.int p.2
              else Value.num ((p.2 : ℚ) / 10)))) ∧
    (∀ v : Nat, convertE1 [("Status", v)] = statusAssocV v) ∧
    (∀ (oracle : Nat → Nat → List Char) (w v : Nat),
      pyIntHex? ((oracle 12648448 1).take 8) = some w →
      pyIntHex? ((oracle 13500436 1).take 8) = some v →
      getModel ["Version", "Communications Main Setting 1"] oracle =
        some [("Communications Main Setting 1", Value.num ((w : ℚ) / 10)),
              ("Version", Value.num ((v : ℚ) / 100))]) := by
  refine ⟨fun items h => convertE1Go_no_status items [] h, fun v => rfl, ?_⟩
  intro oracle w v h1 h2
  have hco : coalesce (resolve ["Version", "Communications Main Setting 1"]) =
      [(12648448, 1), (13500436, 1)] := by
    rw [show resolve ["Version", "Communications Main Setting 1"] =
      [13500436, 12648448] from by decide]
    decide
  have r1 := read_model_single "C1" 0 (oracle 12648448 1) w
    "Communications Main Setting 1" (by decide) (by decide) h1
  rw [if_pos (by decide)] at r1
  have r2 := read_model_single "CE" 20 (oracle 13500436 1) v "Version"
    (by decide) (by decide) h2
  rw [if_pos (by decide)] at r2
  have hns1 : ∀ p ∈ [("Communications Main Setting 1", w)], p.1 ≠ "Status" := by
    intro p hp
    simp only [List.mem_singleton] at hp
    subst hp
    show "Communications Main Setting 1" ≠ "Status"
    decide
  have hns2 : ∀ p ∈ [("Version", v)], p.1 ≠ "Status" := by
    intro p hp
    simp only [List.mem_singleton] at hp
    subst hp
    show "Version" ≠ "Status"
    decide
  have hc1 : convertE1 [("Communications Main Setting 1", w)] =
      [("Communications Main Setting 1", Value.num ((w : ℚ) / 10))] := by
    unfold convertE1
    rw [convertE1Go_no_status _ [] hns1]
    simp
  have hc2 : convertE1 [("Version", v)] =
      [("Version", Value.num ((v : ℚ) / 100))] := by
    unfold convertE1
    rw [convertE1Go_no_status _ [] hns2]
    simp
  rw [hc1] at r1
  rw [hc2] at r2
  have hb1 : ("Communications Main Setting 1" == "Version") = false := by decide
  have hcm1 : (["Version", "Communications Main Setting 1"].contains
      "Communications Main Setting 1") = true := by decide
  have hcm2 : (["Version", "Communications Main Setting 1"].contains
      "Version") = true := by decide
  unfold getModel
  rw [hco]
  simp only [List.foldlM_cons, List.foldlM_nil, Option.bind_eq_bind,
    Option.some_bind]
  rw [show famOfAddr 12648448 = "C1" from by decide,
    show (12648448 % 65536 : Nat) = 0 from by decide, r1]
  simp only [Option.some_bind]
  rw [show famOfAddr 13500436 = "CE" from by decide,
    show (13500436 % 65536 : Nat) = 20 from by decide, r2]
  simp only [Option.some_bind, dict_update, List.foldl_cons, List.foldl_nil,
    dict_set, List.any_nil, List.any_cons, hb1, Bool.or_self, Bool.or_false,
    Bool.false_or, if_false, List.nil_append, List.cons_append]
  simp only [pure, Option.bind_eq_bind, Option.some_bind, Bool.false_eq_true,
    if_false]
  have hany : ([("Communications Main Setting 1", Value.num ((w : ℚ) / 10))].any
      fun p => p.1 == "Version") = false := by
    simp [hb1]
  simp only [hany, Bool.false_eq_true, if_false, List.cons_append, List.nil_append]
  have hfil : List.filter
      (fun p => ["Version", "Communications Main Setting 1"].contains p.1 ||
        status_labels.contains p.1)
      [("Communications Main Setting 1", Value.num ((w : ℚ) / 10)),
       ("Version", Value.num ((v : ℚ) / 100))] =
      [("Communications Main Setting 1", Value.num ((w : ℚ) / 10)),
       ("Version", Value.num ((v : ℚ) / 100))] := by
    simp [List.filter_cons, hcm1, hcm2]
  rw [hfil]
  rw [if_neg (by simp)]

/-- Witness for C5: a singleton non-special read divides by ten, and the
Version and Communications Main Setting 1 request against a device whose
every read returns the payload 0000007D decodes to 1.25 and 12.5. -/
theorem C5_read_scaling_witness :
    convertE1 [("Input Monitor", 7)] =
      [("Input Monitor", Value.num (((7 : ℕ) : ℚ) / 10))] ∧
    getModel ["Version", "Communications Main Setting 1"]
        (fun _ _ => "0000007D".toList) =
      some [("Communications Main Setting 1", Value.num (((125 : ℕ) : ℚ) / 10)),
            ("Version", Value.num (((125 : ℕ) : ℚ) / 100))] := by
  constructor
  · have h := C5_read_scaling.1 [("Input Monitor", 7)] (by decide)
    simpa using h
  · exact C5_read_scaling.2.2 (fun _ _ => "0000007D".toList) 125 125
      (by decide) (by decide)

end PyOmron
